import Mathlib

/-!
Verification development for the `ast_code_parse` repository: a shallow
embedding of `py_object_actions.move_objects` and the helper functions of
`return_py_object_info` (`get_object_dependencies`, `get_user_defined_objects`,
`get_meta_data`, `get_primary_functions_and_classes_regex`), with theorems
checking the repository's specification claims against the embedded code.
-/

/-- A simplified Python statement, as produced by `ast.parse`.  Only the
constructors the analysed functions inspect are distinguished:
function/class definitions carry their name and body, `import`/`from`
statements carry the referenced module names, and every other statement is
kept as its source text together with the list of bare names it reads in a
value-load context (the `ast.Name`/`Load` nodes that
`get_object_dependencies` walks). -/
inductive Stmt where
  | functionDef (name : String) (body : List Stmt)
  | classDef (name : String) (body : List Stmt)
  | importStmt (modules : List String)
  | importFrom (module : String) (names : List String)
  | exprStmt (text : String) (loads : List String)
  deriving Repr

mutual
/-- Structural equality of statements (models CPython's default object
identity only up to structure; the embedded code never stores two structurally
equal but distinct nodes in the places where identity matters). -/
def stmtBEq : Stmt → Stmt → Bool
  | .functionDef n b, .functionDef n' b' => n == n' && stmtsBEq b b'
  | .classDef n b, .classDef n' b' => n == n' && stmtsBEq b b'
  | .importStmt ms, .importStmt ms' => ms == ms'
  | .importFrom m ns, .importFrom m' ns' => m == m' && ns == ns'
  | .exprStmt t l, .exprStmt t' l' => t == t' && l == l'
  | _, _ => false

/-- Pointwise structural equality of statement lists. -/
def stmtsBEq : List Stmt → List Stmt → Bool
  | [], [] => true
  | s :: r, s' :: r' => stmtBEq s s' && stmtsBEq r r'
  | _, _ => false
end

instance : BEq Stmt := ⟨stmtBEq⟩

/-- The child statements of a node, as `ast.iter_child_nodes` yields them for
the node kinds modelled here (only definitions have statement children). -/
def Stmt.children : Stmt → List Stmt
  | .functionDef _ b => b
  | .classDef _ b => b
  | _ => []

mutual
/-- Number of nodes in a statement's subtree (the statement itself included). -/
def Stmt.size : Stmt → Nat
  | .functionDef _ b => 1 + stmtsSize b
  | .classDef _ b => 1 + stmtsSize b
  | .importStmt _ => 1
  | .importFrom _ _ => 1
  | .exprStmt _ _ => 1

/-- Total node count of a list of statement subtrees. -/
def stmtsSize : List Stmt → Nat
  | [] => 0
  | s :: rest => Stmt.size s + stmtsSize rest
end

/-- Breadth-first traversal worker: `ast.walk` keeps a queue, pops the front
node, yields it and appends its children to the queue.  The fuel argument is
always called with the exact number of nodes reachable from the queue
(`stmtsSize q`), which is exactly the number of pops the loop performs, so the
`0` branch is never taken from `walkBFS`. -/
def walkGo : Nat → List Stmt → List Stmt
  | _, [] => []
  | 0, _ :: _ => []
  | fuel + 1, s :: rest => s :: walkGo fuel (rest ++ s.children)

/-- `ast.walk` over a module body (or over a single node's subtree when given
a singleton list): yields every node, breadth first.  The `Module` node
itself, which `ast.walk` yields first, is omitted — it is never a
function/class/import node, so no caller in the source distinguishes it. -/
def walkBFS (body : List Stmt) : List Stmt := walkGo (stmtsSize body) body

example : walkBFS [Stmt.functionDef "a" [Stmt.functionDef "b" [], Stmt.importStmt ["os"]],
    Stmt.exprStmt "x" []] =
    [Stmt.functionDef "a" [Stmt.functionDef "b" [], Stmt.importStmt ["os"]],
     Stmt.exprStmt "x" [], Stmt.functionDef "b" [], Stmt.importStmt ["os"]] := rfl

example : ([Stmt.functionDef "a" []].contains (Stmt.functionDef "a" [])) = true := rfl

/-- `isinstance(node, ast.FunctionDef) or isinstance(node, ast.ClassDef)` —
the check the source repeats for every declaration test. -/
def Stmt.isDefOrClass : Stmt → Bool
  | .functionDef _ _ => true
  | .classDef _ _ => true
  | _ => false

/-- `isinstance(node, ast.Import) or isinstance(node, ast.ImportFrom)`. -/
def Stmt.isImport : Stmt → Bool
  | .importStmt _ => true
  | .importFrom _ _ => true
  | _ => false

/-- The `.name` attribute of a definition node (and a harmless default for the
node kinds that have no `.name`; the source only reads `.name` behind an
`isDefOrClass` test). -/
def Stmt.defName : Stmt → String
  | .functionDef n _ => n
  | .classDef n _ => n
  | _ => ""

/-- In-place assignment `object_node.name = new_name` (line 56 of
`py_object_actions.py`), as a functional update. -/
def Stmt.rename (s : Stmt) (n : String) : Stmt :=
  match s with
  | .functionDef _ b => .functionDef n b
  | .classDef _ b => .classDef n b
  | x => x

/-- Comma-separated name list, as `ast.unparse` prints alias lists. -/
def commaSep : List String → String
  | [] => ""
  | [n] => n
  | n :: rest => n ++ ", " ++ commaSep rest

mutual
/-- Model of the external serializer `ast.unparse` on a single statement.
The spec treats the parser/serializer as an assumed-correct library leaf, so
only determinism and the distinctness of the statement forms matter here; the
rendering is a fixed deterministic scheme with one line per statement and a
four-space-indented block for definition bodies. -/
def unparseStmt : Stmt → String
  | .functionDef n b => "def " ++ n ++ "():\n" ++ unparseBlock b
  | .classDef n b => "class " ++ n ++ ":\n" ++ unparseBlock b
  | .importStmt ms => "import " ++ commaSep ms
  | .importFrom m ns => "from " ++ m ++ " import " ++ commaSep ns
  | .exprStmt t _ => t

/-- Rendering of an indented definition body. -/
def unparseBlock : List Stmt → String
  | [] => "    pass"
  | [s] => "    " ++ unparseStmt s
  | s :: rest => "    " ++ unparseStmt s ++ "\n" ++ unparseBlock rest
end

/-- Model of `ast.unparse` on a whole module: its statements, one per line. -/
def unparseModule (body : List Stmt) : String :=
  String.intercalate "\n" (body.map unparseStmt)

/-- Set-style add on a list: Python `set.add` (no duplicate entries).  The
iteration order of a Python set is unspecified; this model fixes the insertion
order and all statements proved here depend on membership only. -/
def setAdd (l : List String) (n : String) : List String :=
  if l.contains n then l else l ++ [n]

/-- First-occurrence deduplication, the key order of a Python dict built by
repeated assignment. -/
def firstDedup (l : List String) : List String :=
  l.foldl setAdd []

/-- Finite model of `sys.stdlib_module_names`: the fixed registry of
standard-library module names the runtime ships (restricted to the modules
that can occur in the development's examples). -/
def stdlib_module_names : List String :=
  ["sys", "os", "ast", "re", "pathlib", "inspect", "typing", "functools",
   "traceback", "math", "json", "collections", "itertools"]

/-- The dependency classification dict returned by
`get_object_dependencies`: keys `local`, `imported`, `stdlib`. -/
structure DepClass where
  localNames : List String
  importedNames : List String
  stdlibNames : List String
  deriving Repr

/-- What a bare name resolves to in the live module that owns the inspected
object (`sys.modules.get(obj.__module__)` followed by `getattr`): a module
(classified stdlib/external by its `__name__`), a same-module function or
class (classified local), something else, or nothing. -/
inductive NameRes where
  | toModule (modName : String)
  | toLocal
  | toOther
  deriving Repr

/-- The `source_code` argument of `get_object_dependencies` as a Python
value: a string that parses (`strOk`), a string that raises `SyntaxError`
(`strBad`), or — what `move_objects` line 35 actually passes — the list of
requested object names, on which `ast.parse` raises `TypeError`. -/
inductive PySourceArg where
  | strOk (tree : List Stmt)
  | strBad
  | listOfStr (names : List String)
  deriving Repr

/-- One classification step of the `ast.walk` loop in
`get_object_dependencies` (lines 329–356 of `return_py_object_info.py`):
imports are classified by membership in the standard-library registry, bare
name loads through the `resolve` oracle standing for the live-module
attribute lookup. -/
def classifyStmt (resolve : String → Option NameRes) (acc : DepClass) :
    Stmt → DepClass
  | .importStmt ms =>
      ms.foldl (fun a m =>
        if stdlib_module_names.contains m then
          ⟨a.localNames, a.importedNames, setAdd a.stdlibNames m⟩
        else ⟨a.localNames, setAdd a.importedNames m, a.stdlibNames⟩) acc
  | .importFrom m _ =>
      if stdlib_module_names.contains m then
        ⟨acc.localNames, acc.importedNames, setAdd acc.stdlibNames m⟩
      else ⟨acc.localNames, setAdd acc.importedNames m, acc.stdlibNames⟩
  | .exprStmt _ loads =>
      loads.foldl (fun a n =>
        match resolve n with
        | some (.toModule m) =>
            if stdlib_module_names.contains m then
              ⟨a.localNames, a.importedNames, setAdd a.stdlibNames m⟩
            else ⟨a.localNames, setAdd a.importedNames m, a.stdlibNames⟩
        | some .toLocal => ⟨setAdd a.localNames n, a.importedNames, a.stdlibNames⟩
        | some .toOther => a
        | none => a) acc
  | _ => acc

/-- `get_object_dependencies(obj, source_code)` (lines 322–365 of
`return_py_object_info.py`): parse `source_code`, walk the tree classifying
imports and resolvable bare names into local / imported / stdlib sets.  On
`SyntaxError`/`TypeError`/`AttributeError` — in particular when `source_code`
is not text at all, as in the call `move_objects` makes — the exception is
caught, a notice is printed, and the function returns `None`. -/
def get_object_dependencies (resolve : String → Option NameRes) :
    PySourceArg → Option DepClass
  | .strOk tree =>
      some ((walkBFS tree).foldl (classifyStmt resolve) ⟨[], [], []⟩)
  | .strBad => none
  | .listOfStr _ => none

/-- The resolution environment of the `Path` object that `move_objects`
passes as the `obj` argument.  It is irrelevant to every reachable behaviour:
parsing the list argument fails before any name is resolved. -/
def pathResolve : String → Option NameRes := fun _ => none

example : get_object_dependencies pathResolve (.listOfStr ["foo", "bar"]) = none := rfl

/-- The exceptions `move_objects` can raise.  In the source every one of them
is re-raised by the final `except Exception` handler wrapped in a generic
`"An error occurred: ..."` message (line 126–127 of `py_object_actions.py`);
the constructors record the underlying cause that the wrapped message
carries.  An error return models an exception propagating out of the call
before the file writes, which in the source sit at the very end of the
success path — so an error return means neither file is written. -/
inductive MoveErr where
  | notFound (missing : List String)
  | invalidPolicy (policy : String)
  | noneNotIterable
  | removeNotInList
  deriving Repr, DecidableEq

/-- The observable outcome of a completed `move_objects` call: the final
destination tree and the text written to the destination file, the final
source tree, and the text written to the source file when
`remove_from_source` requested a source rewrite (`none` = the source file was
never opened for writing). -/
structure MoveResult where
  destBody : List Stmt
  destWritten : String
  sourceBody : List Stmt
  sourceWritten : Option String
  deriving Repr

/-- Line 51: `any(... node.name == object_name for node in dest_tree.body)` —
does the destination's top level already hold a definition of this name? -/
def hasTopDefNamed (body : List Stmt) (n : String) : Bool :=
  body.any (fun s => s.isDefOrClass && s.defName == n)

/-- Lines 68–70: each migrated nested import node is inserted at the front of
the destination body unless some destination statement already serializes to
the same text. -/
def insertImports (importNodes : List Stmt) (db : List Stmt) : List Stmt :=
  importNodes.foldl (fun d imp =>
    if d.any (fun s => unparseStmt s == unparseStmt imp) then d else imp :: d) db

/-- Lines 73–76: `for dependency in unique_dependencies` iterates the KEYS of
the classification dict (`local`, `imported`, `stdlib`), builds
`import <key>` for each, and front-inserts it unless already textually
present.  (Reachable only if `unique_dependencies` were a dict; see
`processOne`.) -/
def insertDepKeyImports (db : List Stmt) : List Stmt :=
  ["local", "imported", "stdlib"].foldl (fun d k =>
    let imp := Stmt.importStmt [k]
    if d.any (fun s => unparseStmt s == unparseStmt imp) then d else imp :: d) db

/-- Lines 85–99: find the first top-level definition named `p` and insert the
node right after it; when no such definition exists, print a notice and
append at the end. -/
def insertAfterFirst (p : String) (node : Stmt) : List Stmt → List Stmt
  | [] => [node]
  | s :: rest =>
      if s.isDefOrClass && s.defName == p then s :: node :: rest
      else s :: insertAfterFirst p node rest

/-- Lines 79–99: position resolution for the node being relocated. -/
def insertAtPosition (position : Option String) (node : Stmt) (db : List Stmt) :
    List Stmt :=
  match position with
  | none => db ++ [node]
  | some p =>
      if p = "bottom" then db ++ [node]
      else if p = "top" then node :: db
      else insertAfterFirst p node db

/-- Replace the first structurally equal occurrence; models the in-place
`object_node.name = ...` mutation being visible through the source tree's
top-level list, which aliases the same node object. -/
def replaceFirst (l : List Stmt) (old new : Stmt) : List Stmt :=
  match l with
  | [] => []
  | s :: rest => if stmtBEq s old then new :: rest else s :: replaceFirst rest old new

/-- The per-declaration tail of the `move_objects` loop after conflict
handling (lines 67–103): insert migrated imports, iterate
`unique_dependencies` — which raises `TypeError: 'NoneType' object is not
iterable` whenever the dependency call returned `None`, i.e. on every call
`move_objects` actually makes — then splice the node at its position and, when
requested, remove it from the source body (`list.remove` raises when the node
is not a top-level source statement). -/
def processOne (importNodes : List Stmt) (uniqueDeps : Option DepClass)
    (position : Option String) (removeFromSource : Bool)
    (node : Stmt) (db sb : List Stmt) : Except MoveErr (List Stmt × List Stmt) :=
  let db1 := insertImports importNodes db
  match uniqueDeps with
  | none => .error .noneNotIterable
  | some _ =>
      let db2 := insertDepKeyImports db1
      let db3 := insertAtPosition position node db2
      if removeFromSource then
        if sb.contains node then .ok (db3, sb.erase node)
        else .error .removeNotInList
      else .ok (db3, sb)

/-- The `for object_node in object_nodes` loop of `move_objects`
(lines 47–103): conflict resolution per the policy string, then the insertion
pipeline, threading the destination and source bodies. -/
def processObjects (importNodes : List Stmt) (uniqueDeps : Option DepClass)
    (position : Option String) (handleConflicts : String)
    (removeFromSource : Bool) :
    List Stmt → List Stmt → List Stmt → Except MoveErr (List Stmt × List Stmt)
  | [], db, sb => .ok (db, sb)
  | node :: rest, db, sb =>
      let objectName := node.defName
      if hasTopDefNamed db objectName then
        if handleConflicts = "rename" then
          let node2 := node.rename (objectName ++ "_moved")
          let sb2 := replaceFirst sb node node2
          match processOne importNodes uniqueDeps position removeFromSource node2 db sb2 with
          | .error e => .error e
          | .ok (db2, sb3) =>
              processObjects importNodes uniqueDeps position handleConflicts
                removeFromSource rest db2 sb3
        else if handleConflicts = "overwrite" then
          let db2 := db.filter (fun s => !(s.isDefOrClass && s.defName == objectName))
          match processOne importNodes uniqueDeps position removeFromSource node db2 sb with
          | .error e => .error e
          | .ok (db3, sb2) =>
              processObjects importNodes uniqueDeps position handleConflicts
                removeFromSource rest db3 sb2
        else if handleConflicts = "skip" then
          processObjects importNodes uniqueDeps position handleConflicts
            removeFromSource rest db sb
        else .error (.invalidPolicy handleConflicts)
      else
        match processOne importNodes uniqueDeps position removeFromSource node db sb with
        | .error e => .error e
        | .ok (db2, sb2) =>
            processObjects importNodes uniqueDeps position handleConflicts
              removeFromSource rest db2 sb2

/-- Line 22–24: the walk of the source tree collecting every function/class
node (at any nesting depth) whose name is among the requested names, in
`ast.walk` order. -/
def objectNodesOf (objectNames : List String) (sourceBody : List Stmt) : List Stmt :=
  (walkBFS sourceBody).filter
    (fun s => s.isDefOrClass && objectNames.contains s.defName)

/-- Lines 26–28: the import statements nested anywhere inside each matched
node, in walk order, concatenated over the matched nodes. -/
def importNodesOf (objectNodes : List Stmt) : List Stmt :=
  objectNodes.flatMap (fun n => (walkBFS [n]).filter Stmt.isImport)

/-- Line 31: `set(object_names) - set(found names)`, a Python set modelled as
a first-occurrence-deduplicated list compared by membership. -/
def setDiff (a b : List String) : List String :=
  firstDedup (a.filter (fun n => !b.contains n))

/-- `move_objects(object_names, source, dest, remove_from_source, position,
handle_conflicts)` (`py_object_actions.py`, lines 6–127), embedded at the
point where both files have been read and parsed: `sourceBody` and `destBody`
are the parsed trees (a missing destination file parses as the empty module).
The embedding returns the trees and written texts on success and the raised
(generically re-wrapped) exception otherwise; the source writes its two files
only at the very end of the success path, so an error return leaves both
files untouched. -/
def move_objects (objectNames : List String) (sourceBody destBody : List Stmt)
    (removeFromSource : Bool) (position : Option String)
    (handleConflicts : String) : Except MoveErr MoveResult :=
  let objectNodes := objectNodesOf objectNames sourceBody
  let importNodes := importNodesOf objectNodes
  if objectNodes.length ≠ objectNames.length then
    .error (.notFound (setDiff objectNames (objectNodes.map Stmt.defName)))
  else
    let uniqueDeps := get_object_dependencies pathResolve (.listOfStr objectNames)
    match processObjects importNodes uniqueDeps position handleConflicts
        removeFromSource objectNodes destBody sourceBody with
    | .error e => .error e
    | .ok (db, sb) =>
        .ok ⟨db, unparseModule db, sb,
          if removeFromSource then some (unparseModule sb) else none⟩

example :
    move_objects ["foo"] [Stmt.functionDef "foo" [Stmt.exprStmt "pass" []]] []
      false none "overwrite" = .error .noneNotIterable := rfl

example :
    move_objects ["a", "b"] [Stmt.functionDef "a" [Stmt.exprStmt "pass" []]] []
      false none "overwrite" = .error (.notFound ["b"]) := rfl

example :
    move_objects ["foo"]
      [Stmt.functionDef "foo" [Stmt.exprStmt "pass" []]]
      [Stmt.functionDef "foo" [Stmt.exprStmt "return 1" []]]
      false none "skip"
      = .ok ⟨[Stmt.functionDef "foo" [Stmt.exprStmt "return 1" []]],
          unparseModule [Stmt.functionDef "foo" [Stmt.exprStmt "return 1" []]],
          [Stmt.functionDef "foo" [Stmt.exprStmt "pass" []]], none⟩ := rfl

/-- Assignment `d[k] = v` on a Python dict modelled as an association list:
an existing key keeps its position and takes the new value, a new key is
appended. -/
def dictInsert (d : List (String × String)) (k v : String) :
    List (String × String) :=
  if d.any (fun p => p.1 == k) then
    d.map (fun p => if p.1 == k then (k, v) else p)
  else d ++ [(k, v)]

/-- Dict lookup `d[k]` (total here; the source only indexes keys it has just
tested with `in`). -/
def dictGet (d : List (String × String)) (k : String) : String :=
  match d.find? (fun p => p.1 == k) with
  | some p => p.2
  | none => ""

/-- The kind string stored per enumerated node: line 182's conditional
`'class' if isinstance(node, ast.ClassDef) else 'function'`. -/
def kindOf (s : Stmt) : String :=
  match s with
  | .classDef _ _ => "class"
  | _ => "function"

/-- `get_user_defined_objects(file_path)` (`return_py_object_info.py`,
lines 163–192), embedded after the file has been read and parsed: walk the
WHOLE tree (`ast.walk`, every nesting depth) building a dict from each
function/class node's name to its kind string, then keep only the names that
are attributes of the dynamically imported module.  `moduleAttrs` stands for
the attribute names the live module ends up with after executing the file
(`hasattr(module, obj_name)`). -/
def get_user_defined_objects (tree : List Stmt) (moduleAttrs : List String) :
    List (String × String) :=
  let objects := ((walkBFS tree).filter Stmt.isDefOrClass).foldl
    (fun d s => dictInsert d s.defName (kindOf s)) []
  objects.filter (fun p => moduleAttrs.contains p.1)

/-- What the live runtime yields for one enumerated name inside the
`get_meta_data` loop (lines 144–158): `getattr` raises `AttributeError`
(printed, declaration dropped), the object is a bound method/descriptor
(silently dropped), `get_object_metadata` succeeds with a record, or
`get_object_metadata` raises (caught by the per-object `except Exception`,
printed, declaration dropped). -/
inductive ObjOutcome where
  | absent
  | methodLike
  | extractOk (m : String × String)
  | extractFail (msg : String)
  deriving Repr

/-- The metadata record of `get_object_metadata`, reduced to the pair the
claims inspect: the object's name and an opaque rendering of the rest of the
record. -/
abbrev MetaRecord := String × String

/-- The `all_objects` restriction of `get_meta_data` lines 135–136:
`{key: all_objects[key] for key in obj_names if key in all_objects}` when
`obj_names` is given — note Python's truthiness: an EMPTY `obj_names` list is
falsy, so no restriction is applied then. -/
def selectedObjects (tree : List Stmt) (moduleAttrs : List String)
    (objNames : Option (List String)) : List (String × String) :=
  let allObjects := get_user_defined_objects tree moduleAttrs
  match objNames with
  | none => allObjects
  | some [] => allObjects
  | some ns =>
      (firstDedup (ns.filter (fun k => allObjects.any (fun p => p.1 == k)))).map
        (fun k => (k, dictGet allObjects k))

/-- `get_meta_data(file_path, obj_names)` (`return_py_object_info.py`,
lines 114–160), embedded after file read/parse and module import both
succeeded (their failures abort the batch before the loop and are outside
this claim's scope): loop over the selected objects, query the runtime via
`env`, and collect the successfully extracted records; every per-declaration
failure is caught (or skipped) and the loop continues. -/
def get_meta_data (tree : List Stmt) (moduleAttrs : List String)
    (objNames : Option (List String)) (env : String → ObjOutcome) :
    List MetaRecord :=
  (selectedObjects tree moduleAttrs objNames).foldl
    (fun acc p =>
      match env p.1 with
      | .absent => acc
      | .methodLike => acc
      | .extractOk m => acc ++ [m]
      | .extractFail _ => acc)
    []

/-- ASCII model of the regex class `\w`. -/
def isWordChar (c : Char) : Bool := c.isAlphanum || c == '_'

/-- ASCII model of the regex class `\s` (space, tab, newline, carriage
return, vertical tab, form feed). -/
def isSpaceChar (c : Char) : Bool :=
  c == ' ' || c == '\t' || c == '\n' || c == '\r' ||
  c == Char.ofNat 11 || c == Char.ofNat 12

/-- The alternation `(?:def|class)` at the current position. -/
def stripKeyword : List Char → Option (List Char)
  | 'd' :: 'e' :: 'f' :: rest => some rest
  | 'c' :: 'l' :: 'a' :: 's' :: 's' :: rest => some rest
  | _ => none

/-- One-or-more greedy match of a character class (`\s+`, `\w+`); the two
classes are disjoint, so greedy matching is exact here. -/
def takeWhile1 (p : Char → Bool) (l : List Char) :
    Option (List Char × List Char) :=
  match l with
  | [] => none
  | c :: rest =>
      if p c then some (c :: rest.takeWhile p, rest.dropWhile p) else none

/-- The pattern `(?:def|class)\s+(\w+)` applied at the current position:
returns the captured word and the remainder after the match. -/
def matchDefClass (l : List Char) : Option (List Char × List Char) :=
  match stripKeyword l with
  | none => none
  | some rest =>
      match takeWhile1 isSpaceChar rest with
      | none => none
      | some (_, rest2) =>
          match takeWhile1 isWordChar rest2 with
          | none => none
          | some (word, rest3) => some (word, rest3)

/-- `re.findall(r"^(?:def|class)\s+(\w+)", content, re.MULTILINE)`: scan left
to right; at each line start try the pattern, collecting the capture and
resuming after the match (a match never ends right after a newline, since its
last character is a word character).  The fuel is called with more than the
text's length and every step consumes at least one character. -/
def findallGo : Nat → Bool → List Char → List (List Char)
  | 0, _, _ => []
  | _ + 1, _, [] => []
  | fuel + 1, atLineStart, c :: rest =>
      if atLineStart then
        match matchDefClass (c :: rest) with
        | some (word, rest2) => word :: findallGo fuel false rest2
        | none => findallGo fuel (c == '\n') rest
      else findallGo fuel (c == '\n') rest

/-- All captures of the pattern over the file content. -/
def findallDefClass (content : String) : List String :=
  (findallGo (content.length + 1) true content.toList).map
    (fun cs => String.mk cs)

/-- Python `str.islower()` on an ASCII identifier: at least one cased
character, and no cased character is uppercase. -/
def pyIslower (s : String) : Bool :=
  (s.toList.any fun c => c.isLower || c.isUpper) &&
  (s.toList.all fun c => !c.isUpper)

/-- `get_primary_functions_and_classes_regex(file_path)`
(`return_py_object_info.py`, lines 82–112), embedded over the file's text:
regex-match the top-level `def`/`class` headers and split the captured names
into the functions list (`match.islower()`) and the classes list (everything
else), keeping match order — the source appends into the two lists in one
pass, which yields the same two subsequences. -/
def get_primary_functions_and_classes_regex (content : String) :
    List String × List String :=
  let ms := findallDefClass content
  (ms.filter pyIslower, ms.filter (fun m => !pyIslower m))

example : findallDefClass "def foo():\n    pass\nclass Bar:\n    pass\n x def nope(): pass\nclass baz:" =
    ["foo", "Bar", "baz"] := rfl

example : get_primary_functions_and_classes_regex "def foo():\nclass Bar:\nclass baz:\ndef _1():" =
    (["foo", "baz"], ["Bar", "_1"]) := rfl

/-- Does any function/class node anywhere in the walked tree carry this
name?  (The matching condition of `move_objects` line 23, per name.) -/
def hasDefNamedB (src : List Stmt) (n : String) : Bool :=
  (walkBFS src).any (fun s => s.isDefOrClass && s.defName == n)

/-- The names of the matched nodes, in walk order (`node.name for node in
object_nodes`). -/
def foundNames (names : List String) (src : List Stmt) : List String :=
  (objectNodesOf names src).map Stmt.defName

/-- The declaration names at a module body's top scope. -/
def topDeclNames (body : List Stmt) : List String :=
  (body.filter Stmt.isDefOrClass).map Stmt.defName

theorem scontains_iff (l : List String) (a : String) :
    l.contains a = true ↔ a ∈ l := List.elem_iff

theorem mem_setAdd (l : List String) (n a : String) :
    a ∈ setAdd l n ↔ a ∈ l ∨ a = n := by
  unfold setAdd
  split_ifs with h
  · rw [scontains_iff] at h
    constructor
    · exact Or.inl
    · rintro (ha | rfl) <;> [exact ha; exact h]
  · simp

theorem mem_foldl_setAdd (l : List String) :
    ∀ (acc : List String) (a : String),
      a ∈ l.foldl setAdd acc ↔ a ∈ acc ∨ a ∈ l := by
  induction l with
  | nil => simp
  | cons x xs ih =>
      intro acc a
      rw [List.foldl_cons, ih, mem_setAdd]
      simp only [List.mem_cons]
      tauto

theorem mem_firstDedup (l : List String) (a : String) :
    a ∈ firstDedup l ↔ a ∈ l := by
  unfold firstDedup
  rw [mem_foldl_setAdd]
  simp

theorem mem_setDiff (a b : List String) (n : String) :
    n ∈ setDiff a b ↔ n ∈ a ∧ n ∉ b := by
  unfold setDiff
  rw [mem_firstDedup, List.mem_filter]
  simp [scontains_iff]

theorem mem_foundNames (names : List String) (src : List Stmt) (n : String) :
    n ∈ foundNames names src ↔ hasDefNamedB src n = true ∧ n ∈ names := by
  unfold foundNames objectNodesOf hasDefNamedB
  simp only [List.mem_map, List.mem_filter, List.any_eq_true, Bool.and_eq_true,
    beq_iff_eq, scontains_iff]
  constructor
  · rintro ⟨s, ⟨hw, hd, hn⟩, rfl⟩
    exact ⟨⟨s, hw, hd, rfl⟩, hn⟩
  · rintro ⟨⟨s, hw, hd, rfl⟩, hn⟩
    exact ⟨s, ⟨hw, hd, hn⟩, rfl⟩

theorem processOne_none (imps : List Stmt) (pos : Option String) (rfs : Bool)
    (node : Stmt) (db sb : List Stmt) :
    processOne imps none pos rfs node db sb = .error .noneNotIterable := rfl

theorem get_object_dependencies_listOfStr (resolve : String → Option NameRes)
    (names : List String) :
    get_object_dependencies resolve (.listOfStr names) = none := rfl

/-- Every completing run of the `move_objects` loop (with the `None`
dependency classification the call always produces) leaves both trees
untouched, and does so because every declaration was skipped: any non-skip
path reaches the `for dependency in unique_dependencies` iteration and dies
there. -/
theorem processObjects_none_ok (imps : List Stmt) (pos : Option String)
    (policy : String) (rfs : Bool) (nodes : List Stmt) :
    ∀ (db sb db2 sb2 : List Stmt),
      processObjects imps none pos policy rfs nodes db sb = Except.ok (db2, sb2) →
      db2 = db ∧ sb2 = sb ∧
        ∀ nd ∈ nodes, hasTopDefNamed db nd.defName = true ∧ policy = "skip" := by
  induction nodes with
  | nil =>
      intro db sb db2 sb2 h
      simp only [processObjects, Except.ok.injEq, Prod.mk.injEq] at h
      exact ⟨h.1.symm, h.2.symm, by simp⟩
  | cons nd rest ih =>
      intro db sb db2 sb2 h
      simp only [processObjects] at h
      by_cases hc : hasTopDefNamed db nd.defName = true
      · rw [if_pos hc] at h
        by_cases hr : policy = "rename"
        · rw [if_pos hr, processOne_none] at h
          simp at h
        · rw [if_neg hr] at h
          by_cases ho : policy = "overwrite"
          · rw [if_pos ho, processOne_none] at h
            simp at h
          · rw [if_neg ho] at h
            by_cases hs : policy = "skip"
            · rw [if_pos hs] at h
              obtain ⟨h1, h2, h3⟩ := ih db sb db2 sb2 h
              refine ⟨h1, h2, ?_⟩
              intro x hx
              rcases List.mem_cons.mp hx with hx1 | hx2
              · rw [hx1]; exact ⟨hc, hs⟩
              · exact h3 x hx2
            · rw [if_neg hs] at h
              simp at h
      · rw [if_neg hc, processOne_none] at h
        simp at h

/-- Success characterization of the embedded `move_objects`: a completing
call leaves the destination and source trees exactly as parsed, writes the
destination's re-serialization (and the source's when removal was
requested), and only completes because every matched declaration hit the
`skip` branch of the conflict policy. -/
theorem move_objects_ok (names : List String) (src destB : List Stmt)
    (rfs : Bool) (pos : Option String) (policy : String) (r : MoveResult)
    (h : move_objects names src destB rfs pos policy = Except.ok r) :
    r.destBody = destB ∧ r.destWritten = unparseModule destB ∧
    r.sourceBody = src ∧
    r.sourceWritten = (if rfs then some (unparseModule src) else none) ∧
    ∀ nd ∈ objectNodesOf names src,
      hasTopDefNamed destB nd.defName = true ∧ policy = "skip" := by
  unfold move_objects at h
  rw [get_object_dependencies_listOfStr] at h
  dsimp only at h
  by_cases hl : (objectNodesOf names src).length ≠ names.length
  · rw [if_pos hl] at h
    simp at h
  · rw [if_neg hl] at h
    cases hp : processObjects (importNodesOf (objectNodesOf names src)) none pos
        policy rfs (objectNodesOf names src) destB src with
    | error e => rw [hp] at h; simp at h
    | ok p =>
        obtain ⟨db, sb⟩ := p
        rw [hp] at h
        simp only [Except.ok.injEq] at h
        obtain ⟨h1, h2, h3⟩ := processObjects_none_ok _ _ _ _ _ _ _ _ _ hp
        subst h1; subst h2
        rw [← h]
        exact ⟨rfl, rfl, rfl, rfl, h3⟩

/-- C1: the claim says the Tree Surgeon runs the Dependency Analyzer once
over the union of the requested declarations, inserts one synthetic import
per classified dependency name not already textually present, and then
completes and writes the destination.  In the code, `move_objects` line 35
passes `(source_file_path, object_names)` to
`get_object_dependencies(obj, source_code)`, so `ast.parse` receives the
name LIST, raises `TypeError`, and the analyzer returns `None`; the loop
`for dependency in unique_dependencies` then raises
`TypeError: NoneType is not iterable` for the very first non-skipped
declaration, the wrapped exception propagates, and nothing is written.  The
theorem evaluates the embedded code at the simplest failing input: one
existing function, empty destination, default policy. -/
theorem c1_dependency_analysis_crash :
    get_object_dependencies pathResolve (PySourceArg.listOfStr ["foo"]) = none
    ∧ move_objects ["foo"] [Stmt.functionDef "foo" [Stmt.exprStmt "pass" []]] []
        false none "overwrite" = .error .noneNotIterable :=
  ⟨rfl, rfl⟩

/-- C2: the claim gives the conflict-policy semantics of the written
destination (`overwrite` → one `foo`, `rename` → `foo` and `foo_moved`,
`skip` → original untouched, other → InvalidPolicyError).  In the code the
`overwrite` and `rename` branches fall through to the
`for dependency in unique_dependencies` iteration over `None` and raise
before anything is written, so no destination with the claimed shape ever
exists; only the `skip` and invalid-policy parts behave as claimed.  The
theorem evaluates the embedded code on a destination already containing
`foo` under each of the four policies. -/
theorem c2_conflict_policies_crash :
    move_objects ["foo"] [Stmt.functionDef "foo" [Stmt.exprStmt "return 2" []]]
        [Stmt.functionDef "foo" [Stmt.exprStmt "return 1" []]]
        false none "overwrite" = .error .noneNotIterable
    ∧ move_objects ["foo"] [Stmt.functionDef "foo" [Stmt.exprStmt "return 2" []]]
        [Stmt.functionDef "foo" [Stmt.exprStmt "return 1" []]]
        false none "rename" = .error .noneNotIterable
    ∧ move_objects ["foo"] [Stmt.functionDef "foo" [Stmt.exprStmt "return 2" []]]
        [Stmt.functionDef "foo" [Stmt.exprStmt "return 1" []]]
        false none "skip"
        = .ok ⟨[Stmt.functionDef "foo" [Stmt.exprStmt "return 1" []]],
            unparseModule [Stmt.functionDef "foo" [Stmt.exprStmt "return 1" []]],
            [Stmt.functionDef "foo" [Stmt.exprStmt "return 2" []]], none⟩
    ∧ move_objects ["foo"] [Stmt.functionDef "foo" [Stmt.exprStmt "return 2" []]]
        [Stmt.functionDef "foo" [Stmt.exprStmt "return 1" []]]
        false none "merge" = .error (.invalidPolicy "merge") :=
  ⟨rfl, rfl, rfl, rfl⟩

/-- C5: the claim gives the position semantics of the serialized output
(`top` before every pre-existing declaration, `bottom`/absent after, a name
right after its first occurrence).  The position logic (lines 79–99) sits
after the `for dependency in unique_dependencies` iteration over `None`, so
no call that actually inserts a declaration ever reaches it and no serialized
output is produced: the theorem evaluates the embedded code at the spec's own
position test (`bar` into a destination holding only `baz`) for each
position directive. -/
theorem c5_position_crash :
    move_objects ["bar"] [Stmt.functionDef "bar" [Stmt.exprStmt "pass" []]]
        [Stmt.functionDef "baz" [Stmt.exprStmt "pass" []]]
        false (some "top") "overwrite" = .error .noneNotIterable
    ∧ move_objects ["bar"] [Stmt.functionDef "bar" [Stmt.exprStmt "pass" []]]
        [Stmt.functionDef "baz" [Stmt.exprStmt "pass" []]]
        false (some "bottom") "overwrite" = .error .noneNotIterable
    ∧ move_objects ["bar"] [Stmt.functionDef "bar" [Stmt.exprStmt "pass" []]]
        [Stmt.functionDef "baz" [Stmt.exprStmt "pass" []]]
        false none "overwrite" = .error .noneNotIterable
    ∧ move_objects ["bar"] [Stmt.functionDef "bar" [Stmt.exprStmt "pass" []]]
        [Stmt.functionDef "baz" [Stmt.exprStmt "pass" []]]
        false (some "baz") "overwrite" = .error .noneNotIterable :=
  ⟨rfl, rfl, rfl, rfl⟩

/-- The C3 counterexample's source module: a top-level `a` holding a nested
`def a`, so that the walk matches two nodes named `a`. -/
def c3src : List Stmt :=
  [Stmt.functionDef "a" [Stmt.functionDef "a" [Stmt.exprStmt "pass" []]]]

/-- C3 counterexample: requesting `["a", "b"]` from a source whose walk
finds two nodes named `a` and none named `b`.  The requested name `b` has no
matching definition, yet the operation does NOT raise a NotFoundError naming
`b`: the length test `len(object_nodes) != len(object_names)` is fooled by
the duplicate match (2 = 2), the call proceeds and dies in the dependency
iteration instead. -/
theorem c3_counterexample :
    hasDefNamedB c3src "b" = false
    ∧ move_objects ["a", "b"] c3src [] false none "overwrite"
        = .error .noneNotIterable :=
  ⟨rfl, rfl⟩

/-- C3 as amended: PROVIDED no two matched nodes share a name (in particular
no requested name matches both a top-level and a nested definition), a
requested name with no matching definition makes `move_objects` raise the
NotFoundError whose payload is exactly the set difference between the
requested names and the found names — and the error return means the raise
happens before either file is written. -/
theorem c3_amended_notfound (names : List String) (src destB : List Stmt)
    (rfs : Bool) (pos : Option String) (policy : String) (b : String)
    (huniq : (foundNames names src).Nodup)
    (hb : b ∈ names) (hbm : hasDefNamedB src b = false) :
    move_objects names src destB rfs pos policy
      = .error (.notFound (setDiff names (foundNames names src)))
    ∧ ∀ n, n ∈ setDiff names (foundNames names src) ↔
        (n ∈ names ∧ hasDefNamedB src n = false) := by
  have hdiff : ∀ n, n ∈ setDiff names (foundNames names src) ↔
      (n ∈ names ∧ hasDefNamedB src n = false) := by
    intro n
    rw [mem_setDiff, mem_foundNames]
    constructor
    · rintro ⟨hn, hnf⟩
      refine ⟨hn, ?_⟩
      cases hd : hasDefNamedB src n
      · rfl
      · exact absurd ⟨hd, hn⟩ hnf
    · rintro ⟨hn, hd⟩
      exact ⟨hn, fun hc => by rw [hd] at hc; exact absurd hc.1 (by simp)⟩
  refine ⟨?_, hdiff⟩
  have hbnot : b ∉ foundNames names src := by
    intro hc
    rw [mem_foundNames] at hc
    rw [hbm] at hc
    exact absurd hc.1 (by simp)
  have hsub : (foundNames names src).toFinset ⊆ names.toFinset.erase b := by
    intro n hn
    rw [List.mem_toFinset] at hn
    rcases (mem_foundNames names src n).mp hn with ⟨-, hnn⟩
    refine Finset.mem_erase.mpr ⟨?_, List.mem_toFinset.mpr hnn⟩
    rintro rfl
    exact hbnot hn
  have hlt : (foundNames names src).length < names.length := by
    calc (foundNames names src).length
        = (foundNames names src).toFinset.card := (List.toFinset_card_of_nodup huniq).symm
      _ ≤ (names.toFinset.erase b).card := Finset.card_le_card hsub
      _ < names.toFinset.card := Finset.card_erase_lt_of_mem (List.mem_toFinset.mpr hb)
      _ ≤ names.length := List.toFinset_card_le names
  have hlen : (objectNodesOf names src).length ≠ names.length := by
    have : (foundNames names src).length = (objectNodesOf names src).length := by
      unfold foundNames
      exact List.length_map _ _
    omega
  unfold move_objects
  rw [if_pos hlen]
  rfl

/-- Witness for the amended C3: requesting `["a", "b"]` where the source
holds exactly one definition `a` raises the NotFoundError naming exactly
`b`. -/
theorem c3_amended_notfound_witness :
    move_objects ["a", "b"] [Stmt.functionDef "a" [Stmt.exprStmt "pass" []]] []
        false none "overwrite" = .error (.notFound ["b"]) :=
  Eq.trans
    ((c3_amended_notfound ["a", "b"]
        [Stmt.functionDef "a" [Stmt.exprStmt "pass" []]] [] false none
        "overwrite" "b" (by decide) (by decide) rfl).1)
    rfl

/-- The C4 counterexample's destination: duplicate top-level `foo`
definitions (legal Python) plus a `bar` that will collide and be skipped. -/
def c4destDup : List Stmt :=
  [Stmt.functionDef "foo" [Stmt.exprStmt "return 1" []],
   Stmt.functionDef "foo" [Stmt.exprStmt "return 2" []],
   Stmt.functionDef "bar" [Stmt.exprStmt "pass" []]]

/-- The C4 counterexample's source module. -/
def c4src : List Stmt := [Stmt.functionDef "bar" [Stmt.exprStmt "return 3" []]]

/-- C4 counterexample: a successful relocation (policy `skip`, the requested
`bar` already present, so the batch completes and writes the destination)
after which the destination's top-level declaration names are NOT unique —
the pre-existing duplicate `foo` survives untouched, so the claimed
invariant fails for this successful relocation. -/
theorem c4_counterexample :
    move_objects ["bar"] c4src c4destDup false none "skip"
      = .ok ⟨c4destDup, unparseModule c4destDup, c4src, none⟩
    ∧ ¬ (topDeclNames c4destDup).Nodup :=
  ⟨rfl, by decide⟩

/-- C4 as amended: after every successful relocation WHOSE DESTINATION'S
top-level declaration names were unique before the call, they are unique in
the written destination — a completing call leaves the destination's
declaration list exactly as it was (every processed declaration is skipped),
so initial uniqueness is preserved under every conflict policy. -/
theorem c4_amended_unique_names (names : List String) (src destB : List Stmt)
    (rfs : Bool) (pos : Option String) (policy : String) (r : MoveResult)
    (hu : (topDeclNames destB).Nodup)
    (h : move_objects names src destB rfs pos policy = Except.ok r) :
    (topDeclNames r.destBody).Nodup := by
  obtain ⟨h1, -, -, -, -⟩ := move_objects_ok names src destB rfs pos policy r h
  rw [h1]
  exact hu

/-- The C4 witness's destination (unique names, `bar` colliding). -/
def c4wdest : List Stmt :=
  [Stmt.functionDef "foo" [Stmt.exprStmt "return 1" []],
   Stmt.functionDef "bar" [Stmt.exprStmt "pass" []]]

/-- The C4 witness's source module. -/
def c4wsrc : List Stmt := [Stmt.functionDef "bar" [Stmt.exprStmt "return 4" []]]

/-- The result of the C4 witness's completing call. -/
def c4wres : MoveResult := ⟨c4wdest, unparseModule c4wdest, c4wsrc, none⟩

/-- Witness for the amended C4 at a concrete completing call. -/
theorem c4_amended_unique_names_witness :
    (topDeclNames c4wres.destBody).Nodup :=
  c4_amended_unique_names ["bar"] c4wsrc c4wdest false none "skip" c4wres
    (by decide) rfl

/-- Was this declaration skipped by the conflict policy (it collides with a
top-level destination declaration and the policy is `skip`)? -/
def skippedAtStart (destB : List Stmt) (policy : String) (nd : Stmt) : Bool :=
  hasTopDefNamed destB nd.defName && (policy == "skip")

/-- C6: for a completing call, (a) with `remove_from_source` false the source
file is never opened for writing (byte-for-byte unchanged), and (b) with it
true, every processed declaration that was NOT skipped has its name absent
from the rewritten source's top-level declarations — (b) holds because a
completing call has no non-skipped declarations at all. -/
theorem c6_removal_consistency (names : List String) (src destB : List Stmt)
    (rfs : Bool) (pos : Option String) (policy : String) (r : MoveResult)
    (h : move_objects names src destB rfs pos policy = Except.ok r) :
    (rfs = false → r.sourceWritten = none)
    ∧ (rfs = true →
        ∀ nd ∈ (objectNodesOf names src).filter
            (fun nd => !skippedAtStart destB policy nd),
          nd.defName ∉ topDeclNames r.sourceBody) := by
  obtain ⟨-, -, -, h4, h5⟩ := move_objects_ok names src destB rfs pos policy r h
  constructor
  · intro hf
    subst hf
    simpa using h4
  · intro _ nd hnd
    rw [List.mem_filter] at hnd
    obtain ⟨hmem, hfil⟩ := hnd
    obtain ⟨hc, hs⟩ := h5 nd hmem
    exfalso
    unfold skippedAtStart at hfil
    rw [hc, hs] at hfil
    simp at hfil

/-- The C6 witness's source module. -/
def c6src : List Stmt := [Stmt.functionDef "qux" [Stmt.exprStmt "return 0" []]]

/-- The C6 witness's destination (holds a colliding `qux`). -/
def c6dest : List Stmt := [Stmt.functionDef "qux" [Stmt.exprStmt "return 9" []]]

/-- The result of the C6 witness's completing call. -/
def c6res : MoveResult := ⟨c6dest, unparseModule c6dest, c6src, none⟩

/-- Witness for C6: a concrete completing call with `remove_from_source`
left false never writes the source file. -/
theorem c6_removal_consistency_witness :
    c6res.sourceWritten = none :=
  (c6_removal_consistency ["qux"] c6src c6dest false none "skip" c6res rfl).1 rfl

/-- C9: every completing call writes the destination file with the
re-serialized destination tree — and the tree it serializes is exactly the
parsed input tree, since a completing call inserted nothing (every
declaration was skipped): a fully-skipped batch still rewrites (reformats)
the destination file. -/
theorem c9_destination_always_rewritten (names : List String)
    (src destB : List Stmt) (rfs : Bool) (pos : Option String)
    (policy : String) (r : MoveResult)
    (h : move_objects names src destB rfs pos policy = Except.ok r) :
    r.destWritten = unparseModule destB ∧ r.destBody = destB := by
  obtain ⟨h1, h2, -, -, -⟩ := move_objects_ok names src destB rfs pos policy r h
  exact ⟨h2, h1⟩

/-- The C9 witness's source module. -/
def c9src : List Stmt := [Stmt.functionDef "zap" [Stmt.exprStmt "return 1" []]]

/-- The C9 witness's destination (an import plus a colliding `zap`). -/
def c9dest : List Stmt :=
  [Stmt.importStmt ["os"], Stmt.functionDef "zap" [Stmt.exprStmt "return 2" []]]

/-- The result of the C9 witness's fully-skipped completing call. -/
def c9res : MoveResult := ⟨c9dest, unparseModule c9dest, c9src, none⟩

/-- Witness for C9 at a concrete fully-skipped batch. -/
theorem c9_destination_always_rewritten_witness :
    c9res.destWritten = unparseModule c9dest ∧ c9res.destBody = c9dest :=
  c9_destination_always_rewritten ["zap"] c9src c9dest false none "skip" c9res rfl

theorem any_fst_eq_contains (d : List (String × String)) (k : String) :
    (d.any (fun p => p.1 == k)) = ((d.map Prod.fst).contains k) := by
  rw [Bool.eq_iff_iff]
  simp [List.any_eq_true, scontains_iff, List.mem_map, beq_iff_eq]

theorem fst_dictInsert (d : List (String × String)) (k v : String) :
    (dictInsert d k v).map Prod.fst = setAdd (d.map Prod.fst) k := by
  unfold dictInsert setAdd
  rw [← any_fst_eq_contains]
  cases hA : d.any (fun p => p.1 == k) with
  | true =>
      simp only [if_true]
      rw [List.map_map]
      apply List.map_congr_left
      intro p _
      by_cases hpk : (p.1 == k) = true
      · simp only [Function.comp_apply, hpk, if_true]
        exact (beq_iff_eq.mp hpk).symm
      · have hne : p.1 ≠ k := by simpa using hpk
        simp [Function.comp_apply, hne]
  | false =>
      simp

theorem fst_foldl_dictInsert (ss : List Stmt) :
    ∀ d : List (String × String),
      ((ss.foldl (fun d s => dictInsert d s.defName (kindOf s)) d).map Prod.fst)
        = (ss.map Stmt.defName).foldl setAdd (d.map Prod.fst) := by
  induction ss with
  | nil => intro d; simp
  | cons s rest ih =>
      intro d
      rw [List.foldl_cons, List.map_cons, List.foldl_cons, ih, fst_dictInsert]

theorem fst_filter_contains (attrs : List String) (d : List (String × String)) :
    (d.filter (fun p => attrs.contains p.1)).map Prod.fst
      = (d.map Prod.fst).filter (fun n => attrs.contains n) := by
  induction d with
  | nil => rfl
  | cons p rest ih =>
      rw [List.filter_cons, List.map_cons, List.filter_cons]
      by_cases h : attrs.contains p.1 = true
      · rw [if_pos h, if_pos h, List.map_cons, ih]
      · rw [if_neg h, if_neg h, ih]

/-- The C7 counterexample's module: a top-level assignment `x = 5` and a
top-level `f` holding a NESTED `def x`.  Executing this module leaves the
live module with attributes `x` (the integer) and `f`, which is what the
`moduleAttrs` argument records. -/
def c7tree : List Stmt :=
  [Stmt.exprStmt "x = 5" [],
   Stmt.functionDef "f" [Stmt.functionDef "x" [Stmt.exprStmt "pass" []]]]

/-- C7 counterexample: the enumeration returns the NESTED function `x` as a
candidate declaration (its name coincides with the module-level binding
`x = 5`), while the module's top scope defines only `f` — so the static
enumeration step does not collect exactly the top-level names and a nested
definition IS enumerated. -/
theorem c7_counterexample :
    (get_user_defined_objects c7tree ["x", "f"]).map Prod.fst = ["f", "x"]
    ∧ topDeclNames c7tree = ["f"] :=
  ⟨rfl, rfl⟩

/-- C7 as amended: the enumeration collects exactly the function/class names
appearing ANYWHERE in the walked tree (any nesting depth, first occurrence
order, deduplicated) that are also bound as attributes of the live module —
a nested definition is enumerated precisely when its name coincides with a
module-level binding, and a top-level definition is dropped when module
execution leaves no binding of its name. -/
theorem c7_amended_enumeration (tree : List Stmt) (moduleAttrs : List String) :
    (get_user_defined_objects tree moduleAttrs).map Prod.fst
      = (firstDedup (((walkBFS tree).filter Stmt.isDefOrClass).map Stmt.defName)).filter
          (fun n => moduleAttrs.contains n) := by
  unfold get_user_defined_objects firstDedup
  dsimp only
  rw [fst_filter_contains, fst_foldl_dictInsert]
  rfl

theorem meta_fold_eq (env : String → ObjOutcome) (objs : List (String × String)) :
    ∀ acc : List MetaRecord,
      objs.foldl (fun acc p =>
        match env p.1 with
        | .absent => acc
        | .methodLike => acc
        | .extractOk m => acc ++ [m]
        | .extractFail _ => acc) acc
      = acc ++ objs.filterMap (fun p =>
          match env p.1 with
          | .extractOk m => some m
          | _ => none) := by
  induction objs with
  | nil => intro acc; simp
  | cons p rest ih =>
      intro acc
      rw [List.foldl_cons, List.filterMap_cons]
      cases henv : env p.1 <;> simp [henv, ih]

/-- C8: the metadata batch is total — it never raises for a per-declaration
failure — and returns exactly the successfully extracted records of the
selected declarations in order: a declaration whose live lookup fails
(`absent`), is a method/descriptor (`methodLike`), or whose extraction
raises (`extractFail`, caught and logged by the per-object
`except Exception`) is omitted, and extraction continues with the remaining
declarations. -/
theorem c8_extraction_failures_isolated (tree : List Stmt)
    (moduleAttrs : List String) (objNames : Option (List String))
    (env : String → ObjOutcome) :
    get_meta_data tree moduleAttrs objNames env
      = (selectedObjects tree moduleAttrs objNames).filterMap
          (fun p =>
            match env p.1 with
            | .extractOk m => some m
            | _ => none) := by
  unfold get_meta_data
  rw [meta_fold_eq]
  rfl

/-- The claim's wording, as a predicate: does the name contain a letter? -/
def hasLetter (s : String) : Bool := s.toList.any Char.isAlpha

/-- The claim's wording, as a predicate: are all the name's letters
lowercase (vacuously true for letterless names)? -/
def lettersAllLower (s : String) : Bool :=
  s.toList.all (fun c => !c.isAlpha || c.isLower)

/-- C10 counterexample: `def _1(): pass` — the captured name `_1` has no
letters, so its letters are (vacuously) all lowercase and the claim puts it
in the functions list; Python's `str.islower()` is False for a name without
cased characters, so the code reports it in the CLASSES list. -/
theorem c10_counterexample :
    lettersAllLower "_1" = true
    ∧ get_primary_functions_and_classes_regex "def _1(): pass" = ([], ["_1"]) :=
  ⟨rfl, rfl⟩

theorem isUpper_not_isLower (c : Char) (h : c.isUpper = true) :
    c.isLower = false := by
  simp [Char.isUpper, Char.isLower] at h ⊢
  intro h2
  have ha : c.val.toNat ≤ 90 := UInt32.toNat_le_of_le (by decide) h.2
  have hb : (97 : Nat) ≤ c.val.toNat := UInt32.le_toNat_of_le (by decide) h2
  omega

theorem lower_or_upper (c : Char) : (c.isLower || c.isUpper) = c.isAlpha := by
  unfold Char.isAlpha
  rw [Bool.or_comm]

theorem not_upper_eq (c : Char) : (!c.isUpper) = (!c.isAlpha || c.isLower) := by
  unfold Char.isAlpha
  cases hu : c.isUpper
  · cases hl : c.isLower <;> simp
  · rw [isUpper_not_isLower c hu]
    simp

theorem any_lower_or_upper (l : List Char) :
    (l.any fun c => c.isLower || c.isUpper) = l.any Char.isAlpha := by
  induction l with
  | nil => rfl
  | cons c cs ih => rw [List.any_cons, List.any_cons, ih, lower_or_upper]

theorem all_not_upper (l : List Char) :
    (l.all fun c => !c.isUpper) = l.all (fun c => !c.isAlpha || c.isLower) := by
  induction l with
  | nil => rfl
  | cons c cs ih => rw [List.all_cons, List.all_cons, ih, not_upper_eq]

theorem pyIslower_eq (s : String) :
    pyIslower s = (hasLetter s && lettersAllLower s) := by
  unfold pyIslower hasLetter lettersAllLower
  rw [any_lower_or_upper, all_not_upper]

/-- C10 as amended: the enumerator partitions the matched names by letter
case alone, with the refinement Python's `islower()` imposes — a matched name
goes to the FUNCTIONS list exactly when it contains at least one letter and
all its letters are lowercase, and every other matched name (an uppercase
letter somewhere, or no letters at all) goes to the CLASSES list — still
regardless of the defining keyword, so a `class` with an all-lowercase
letter-containing name is reported as a function. -/
theorem c10_amended_partition (content : String) :
    (get_primary_functions_and_classes_regex content).1
      = (findallDefClass content).filter
          (fun m => hasLetter m && lettersAllLower m)
    ∧ (get_primary_functions_and_classes_regex content).2
      = (findallDefClass content).filter
          (fun m => !(hasLetter m && lettersAllLower m)) := by
  unfold get_primary_functions_and_classes_regex
  dsimp only
  constructor
  · apply List.filter_congr
    intro m _
    exact pyIslower_eq m
  · apply List.filter_congr
    intro m _
    rw [pyIslower_eq]

